import Mathlib

/-!
Shallow embedding of the movodoro selection engine.

The definitions below are translated from `selector.go` (the selection
pipeline) and from the daily-log history helpers (`GetTodayStatsDaily`,
`GetCountTodayDaily`, `GetLastDoneDaily`, `HasEverBeenDoneDaily`).  The
on-disk history is modelled as an in-memory snapshot (`History`): the list of
entries in today's log file, the chronological list of entries across all log
files, and the current wall-clock time in seconds.  Go `float64` values are
modelled as rationals; Go `int` as `Int`.  The process-wide random draw
`rand.Float64()` is passed explicitly as the parameter `u`.
-/

namespace Movodoro

/-- One line of a daily log file (`HistoryEntry` in `types.go`).
Timestamps are seconds since an arbitrary epoch. -/
structure HistoryEntry where
  Timestamp : ℚ
  Code : String
  Status : String
  Duration : Int
  RPE : Int
deriving DecidableEq, Repr

/-- A snapshot of the history store: today's log file, the concatenation of
all log files in chronological order, and the current time (seconds). -/
structure History where
  today : List HistoryEntry
  all : List HistoryEntry
  now : ℚ
deriving DecidableEq, Repr

/-- A movement snack with its computed fields resolved
(`Snack`/`Movo` in `types.go`). -/
structure Movo where
  Code : String
  FullCode : String
  CategoryCode : String
  AllTags : List String
  DurationMin : Int
  DurationMax : Int
  EffectiveRPE : Int
  MaxPerDay : Int
  MinPerDay : Int
  Weight : ℚ
deriving DecidableEq, Repr

/-- `FilterOptions` from `types.go`. -/
structure FilterOptions where
  Tags : List String
  Category : String
  MinDuration : Int
  MaxDuration : Int
  ExactDuration : Int
  MinRPE : Int
  MaxRPE : Int
  SkipMinimums : Bool
deriving DecidableEq, Repr

/-- `DailyStats` from `types.go`. -/
structure DailyStats where
  TotalMovos : Int
  TotalDuration : Int
  TotalRPE : Int
  CompletedSnacks : List HistoryEntry
  SkippedSnacks : List HistoryEntry
deriving DecidableEq, Repr

/-- Boost for snacks with incomplete min_per_day (`minPerDayBoost`). -/
def minPerDayBoost : ℚ := 10
/-- Boost for snacks never completed (`neverDoneBoost`). -/
def neverDoneBoost : ℚ := 3
/-- Boost for snacks not done in 7+ days (`recencyBoost`). -/
def recencyBoost : ℚ := 2
/-- Days threshold for the recency boost (`recencyDays`). -/
def recencyDays : ℚ := 7
/-- Max RPE forced when the daily budget is hit (`autoRecoveryMaxRPE`). -/
def autoRecoveryMaxRPE : Int := 2

/-- `GetCountTodayDaily`: today's (done, skipped) counts for a code. -/
def GetCountTodayDaily (h : History) (code : String) : Int × Int :=
  (((h.today.filter fun e => e.Code == code && e.Status == "done").length : Int),
   ((h.today.filter fun e => e.Code == code && e.Status == "skip").length : Int))

/-- `GetTodayStatsDaily`: fold over today's entries accumulating stats. -/
def GetTodayStatsDaily (h : History) : DailyStats :=
  h.today.foldl
    (fun stats entry =>
      let stats := { stats with TotalMovos := stats.TotalMovos + 1 }
      if entry.Status == "done" then
        { stats with
            TotalDuration := stats.TotalDuration + entry.Duration,
            TotalRPE := stats.TotalRPE + entry.RPE,
            CompletedSnacks := stats.CompletedSnacks ++ [entry] }
      else if entry.Status == "skip" then
        { stats with SkippedSnacks := stats.SkippedSnacks ++ [entry] }
      else stats)
    { TotalMovos := 0, TotalDuration := 0, TotalRPE := 0,
      CompletedSnacks := [], SkippedSnacks := [] }

/-- `GetLastDoneDaily`: scan all history backwards for the most recent
completed entry with the given code; return its timestamp. -/
def GetLastDoneDaily (h : History) (code : String) : Option ℚ :=
  (h.all.reverse.find? fun e => e.Code == code && e.Status == "done").map
    (fun e => e.Timestamp)

/-- `HasEverBeenDoneDaily`: a snack has ever been completed iff
`GetLastDoneDaily` finds a timestamp. -/
def HasEverBeenDoneDaily (h : History) (code : String) : Bool :=
  (GetLastDoneDaily h code).isSome

/-- `(*Snack).HasAllTags`: every required tag occurs (case-insensitively)
among the snack's tags. -/
def HasAllTags (s : Movo) (tags : List String) : Bool :=
  tags.all fun requiredTag =>
    s.AllTags.any fun tag => tag.toLower == requiredTag.toLower

/-- `(*Snack).MatchesDuration`: trivially true when both bounds are zero,
otherwise interval overlap of `[DurationMin, DurationMax]` with
`[minDur, maxDur]`. -/
def MatchesDuration (s : Movo) (minDur maxDur : Int) : Bool :=
  if minDur == 0 && maxDur == 0 then true
  else decide (s.DurationMax ≥ minDur) && decide (s.DurationMin ≤ maxDur)

/-- The duration test inside `filterSnacks`: exact mode when
`ExactDuration > 0`, otherwise range mode with an unset (zero) max bound
replaced by 999 (the unset min bound stays 0). -/
def passesDurationFilter (filters : FilterOptions) (snack : Movo) : Bool :=
  if filters.ExactDuration > 0 then
    !(decide (filters.ExactDuration < snack.DurationMin)
      || decide (filters.ExactDuration > snack.DurationMax))
  else
    let minDur := filters.MinDuration
    let maxDur := if filters.MaxDuration == 0 then 999 else filters.MaxDuration
    MatchesDuration snack minDur maxDur

/-- The conjunction of the `continue` guards in `filterSnacks`: category,
tags, RPE bounds and duration. -/
def snackPassesFilters (filters : FilterOptions) (snack : Movo) : Bool :=
  (filters.Category == "" || snack.CategoryCode == filters.Category)
  && HasAllTags snack filters.Tags
  && (!decide (filters.MinRPE > 0) || decide (snack.EffectiveRPE ≥ filters.MinRPE))
  && (!decide (filters.MaxRPE > 0) || decide (snack.EffectiveRPE ≤ filters.MaxRPE))
  && passesDurationFilter filters snack

/-- `filterSnacks`: keep the snacks passing every filter guard. -/
def filterSnacks (snacks : List Movo) (filters : FilterOptions) : List Movo :=
  snacks.filter (snackPassesFilters filters)

/-- `filterToIncompleteMinimums`: keep the snacks with a minimum requirement
that is not yet met today. -/
def filterToIncompleteMinimums (h : History) (snacks : List Movo) : List Movo :=
  snacks.filter fun snack =>
    !(snack.MinPerDay == 0)
    && decide ((GetCountTodayDaily h snack.FullCode).1 < snack.MinPerDay)

/-- `filterByFrequency`: drop the snacks that have hit their `max_per_day`
limit (`MaxPerDay = 0` means unlimited). -/
def filterByFrequency (h : History) (snacks : List Movo) : List Movo :=
  snacks.filter fun snack =>
    !(decide (snack.MaxPerDay > 0)
      && decide ((GetCountTodayDaily h snack.FullCode).1 ≥ snack.MaxPerDay))

/-- `calculateWeight`: base weight with the min-per-day, never-done and
recency boosts applied as in the Go code. -/
def calculateWeight (h : History) (snack : Movo) : ℚ :=
  let weight := snack.Weight
  let weight :=
    if snack.MinPerDay > 0 then
      if (GetCountTodayDaily h snack.FullCode).1 < snack.MinPerDay then
        weight * minPerDayBoost
      else weight
    else weight
  let weight :=
    if !(HasEverBeenDoneDaily h snack.FullCode) then weight * neverDoneBoost
    else weight
  let weight :=
    match GetLastDoneDaily h snack.FullCode with
    | some lastDone =>
      let daysSince := (h.now - lastDone) / (3600 * 24)
      if daysSince ≥ recencyDays then weight * recencyBoost else weight
    | none => weight
  weight

/-- The condition under which `calculateWeight` multiplies by
`minPerDayBoost`. -/
def minUnmet (h : History) (s : Movo) : Bool :=
  decide (s.MinPerDay > 0)
  && decide ((GetCountTodayDaily h s.FullCode).1 < s.MinPerDay)

/-- The condition under which `calculateWeight` multiplies by
`neverDoneBoost`. -/
def neverDone (h : History) (s : Movo) : Bool :=
  !(HasEverBeenDoneDaily h s.FullCode)

/-- The condition under which `calculateWeight` multiplies by
`recencyBoost`: a most recent completion at least `recencyDays` days old. -/
def staleDone (h : History) (s : Movo) : Bool :=
  match GetLastDoneDaily h s.FullCode with
  | some lastDone => decide ((h.now - lastDone) / (3600 * 24) ≥ recencyDays)
  | none => false

/-- `weightedSnack` from `selector.go`. -/
structure weightedSnack where
  snack : Movo
  weight : ℚ
deriving DecidableEq, Repr

/-- The total weight summed at the top of `weightedRandomSelect`. -/
def totalWeightOf (weighted : List weightedSnack) : ℚ :=
  (weighted.map fun w => w.weight).sum

/-- The accumulation loop of `weightedRandomSelect`: return the first snack
whose running cumulative weight reaches `r`. -/
def wrsLoop (r : ℚ) : List weightedSnack → ℚ → Option Movo
  | [], _ => none
  | w :: rest, cumulative =>
    let cumulative := cumulative + w.weight
    if r ≤ cumulative then some w.snack else wrsLoop r rest cumulative

/-- `weightedRandomSelect`: scale the uniform draw `u` by the total weight,
run the accumulation loop, and fall back to the last element.  The Go code
indexes `weighted[len(weighted)-1]` in the fallback, which faults on an
empty list; here the empty case yields `none`. -/
def weightedRandomSelect (weighted : List weightedSnack) (u : ℚ) : Option Movo :=
  let totalWeight := totalWeightOf weighted
  let r := u * totalWeight
  match wrsLoop r weighted 0 with
  | some s => some s
  | none => weighted.getLast?.map fun w => w.snack

/-- The recovery-mode override at the top of `SelectSnack`: force
`MaxRPE := autoRecoveryMaxRPE` when today's total completed RPE has reached
the daily cap. -/
def effectiveFilters (h : History) (filters : FilterOptions) (maxDailyRPE : Int) :
    FilterOptions :=
  if (GetTodayStatsDaily h).TotalRPE ≥ maxDailyRPE then
    { filters with MaxRPE := autoRecoveryMaxRPE }
  else filters

/-- The min-per-day priority step of `SelectSnack`: unless skipped, replace
the candidates by the incomplete-minimum subset whenever it is non-empty. -/
def candidatesAfterMinimums (h : History) (candidates : List Movo)
    (skipMinimums : Bool) : List Movo :=
  if !skipMinimums then
    let minimumCandidates := filterToIncompleteMinimums h candidates
    if minimumCandidates.isEmpty then candidates else minimumCandidates
  else candidates

/-- `SelectSnack`: recovery override, constraint filter, min-per-day
priority, frequency filter, weighting and weighted random draw.  `u` is the
uniform draw `rand.Float64()`. -/
def SelectSnack (h : History) (snacks : List Movo) (filters : FilterOptions)
    (maxDailyRPE : Int) (u : ℚ) : Except String Movo :=
  let filters := effectiveFilters h filters maxDailyRPE
  let candidates := filterSnacks snacks filters
  if candidates.isEmpty then .error "no snacks match the specified filters"
  else
    let candidates := candidatesAfterMinimums h candidates filters.SkipMinimums
    let candidates := filterByFrequency h candidates
    if candidates.isEmpty then
      .error "all matching snacks have reached their daily limit"
    else
      let weighted := candidates.map fun snack =>
        weightedSnack.mk snack (calculateWeight h snack)
      match weightedRandomSelect weighted u with
      | some selected => .ok selected
      | none => .error "weightedRandomSelect: empty input"

/-- A named subset of the catalog (subset allow-list). -/
structure MovoSubset where
  Description : String
  Codes : List String
deriving DecidableEq, Repr

/-- Modelled from the spec: the implementation of `filterBySubset` is not
among the provided sources (only `subset_test.go` exercises it).  Spec §4.2:
identity when the subset name is empty; an `UnknownSubset` error when the
name is absent from the loaded subsets; otherwise the order-preserving
intersection of the items with the subset's code allow-list, where an empty
intersection is not an error. -/
def filterBySubset (snacks : List Movo) (subsetName : String)
    (subsets : List (String × MovoSubset)) : Except String (List Movo) :=
  if subsetName == "" then .ok snacks
  else
    match subsets.lookup subsetName with
    | none => .error "UnknownSubset"
    | some subset => .ok (snacks.filter fun s => subset.Codes.contains s.FullCode)

/-! ### Concrete fixtures used by witnesses and counterexamples -/

/-- A minimal movo used in concrete evaluations. -/
def movoA : Movo :=
  { Code := "a", FullCode := "T-a", CategoryCode := "T", AllTags := [],
    DurationMin := 1, DurationMax := 5, EffectiveRPE := 1,
    MaxPerDay := 0, MinPerDay := 0, Weight := 1 }

/-- A second minimal movo, distinct from `movoA`. -/
def movoB : Movo :=
  { Code := "b", FullCode := "T-b", CategoryCode := "T", AllTags := [],
    DurationMin := 1, DurationMax := 5, EffectiveRPE := 1,
    MaxPerDay := 0, MinPerDay := 0, Weight := 1 }

/-- A movo with a daily minimum of 1. -/
def movoMin : Movo :=
  { Code := "m", FullCode := "T-m", CategoryCode := "T", AllTags := [],
    DurationMin := 1, DurationMax := 5, EffectiveRPE := 1,
    MaxPerDay := 0, MinPerDay := 1, Weight := 1 }

/-- A movo with a daily maximum of 1. -/
def movoCap : Movo :=
  { Code := "c", FullCode := "T-c", CategoryCode := "T", AllTags := [],
    DurationMin := 1, DurationMax := 5, EffectiveRPE := 1,
    MaxPerDay := 1, MinPerDay := 0, Weight := 1 }

/-- A movo whose duration range lies entirely above 999 minutes. -/
def movoLong : Movo :=
  { Code := "l", FullCode := "T-l", CategoryCode := "T", AllTags := [],
    DurationMin := 1000, DurationMax := 1200, EffectiveRPE := 1,
    MaxPerDay := 0, MinPerDay := 0, Weight := 1 }

/-- The all-defaults filter options (every field unset). -/
def filters0 : FilterOptions :=
  { Tags := [], Category := "", MinDuration := 0, MaxDuration := 0,
    ExactDuration := 0, MinRPE := 0, MaxRPE := 0, SkipMinimums := false }

/-- An empty history snapshot. -/
def hist0 : History := { today := [], all := [], now := 0 }

/-- A completion of `movoCap` logged today. -/
def entryCapDone : HistoryEntry :=
  { Timestamp := 0, Code := "T-c", Status := "done", Duration := 3, RPE := 1 }

/-- History in which `movoCap` was completed once today. -/
def histCapDone : History :=
  { today := [entryCapDone], all := [entryCapDone], now := 0 }

/-- A high-intensity completion logged today (RPE 30). -/
def entryBigRPE : HistoryEntry :=
  { Timestamp := 0, Code := "T-x", Status := "done", Duration := 10, RPE := 30 }

/-- History whose completed RPE today already totals 30. -/
def histBudget : History :=
  { today := [entryBigRPE], all := [entryBigRPE], now := 0 }

/-- A completion of `movoB` one day before `now` in `histBdoneRecent`. -/
def entryBdone : HistoryEntry :=
  { Timestamp := 0, Code := "T-b", Status := "done", Duration := 3, RPE := 1 }

/-- History in which `movoB` was completed one day ago (not today). -/
def histBdoneRecent : History :=
  { today := [], all := [entryBdone], now := 86400 }

/-- History in which `movoMin` itself was completed eight days ago. -/
def histMinStale : History :=
  { today := [],
    all := [{ Timestamp := 0, Code := "T-m", Status := "done",
              Duration := 3, RPE := 1 }],
    now := 8 * 86400 }

/-- A movo whose daily minimum and maximum coincide (both 1). -/
def movoMinMax : Movo :=
  { Code := "mm", FullCode := "T-mm", CategoryCode := "T", AllTags := [],
    DurationMin := 1, DurationMax := 5, EffectiveRPE := 1,
    MaxPerDay := 1, MinPerDay := 1, Weight := 1 }

/-- History in which `movoMinMax` was completed once today. -/
def histMinMaxDone : History :=
  { today := [{ Timestamp := 0, Code := "T-mm", Status := "done",
                Duration := 3, RPE := 1 }],
    all := [{ Timestamp := 0, Code := "T-mm", Status := "done",
              Duration := 3, RPE := 1 }],
    now := 0 }

/-- A concrete subsets configuration for the subset-filter witness. -/
def subsetsFix : List (String × MovoSubset) :=
  [("recovery", { Description := "easy movos", Codes := ["T-a"] })]

/-- The draw rule as the claim words it: the first item in iteration order
whose running partial sum strictly exceeds the drawn value. -/
def specFirstStrict : List weightedSnack → ℚ → Option Movo
  | [], _ => none
  | w :: rest, r =>
    if r < w.weight then some w.snack else specFirstStrict rest (r - w.weight)

/-- The draw rule the code implements: the first item in iteration order
whose running partial sum reaches (is ≥) the drawn value. -/
def specFirstAtLeast : List weightedSnack → ℚ → Option Movo
  | [], _ => none
  | w :: rest, r =>
    if r ≤ w.weight then some w.snack else specFirstAtLeast rest (r - w.weight)

/-! ### Shared lemmas about the pipeline stages -/

theorem mem_filterSnacks_iff {snacks : List Movo} {f : FilterOptions} {s : Movo} :
    s ∈ filterSnacks snacks f ↔ s ∈ snacks ∧ snackPassesFilters f s = true :=
  List.mem_filter

theorem mem_of_mem_filterByFrequency {h : History} {l : List Movo} {s : Movo}
    (hs : s ∈ filterByFrequency h l) : s ∈ l :=
  List.mem_of_mem_filter hs

theorem mem_of_mem_filterToIncompleteMinimums {h : History} {l : List Movo}
    {s : Movo} (hs : s ∈ filterToIncompleteMinimums h l) : s ∈ l :=
  List.mem_of_mem_filter hs

theorem mem_of_mem_candidatesAfterMinimums {h : History} {l : List Movo}
    {b : Bool} {s : Movo} (hs : s ∈ candidatesAfterMinimums h l b) : s ∈ l := by
  unfold candidatesAfterMinimums at hs
  simp only [] at hs
  split at hs
  · split at hs
    · exact hs
    · exact mem_of_mem_filterToIncompleteMinimums hs
  · exact hs

theorem effectiveFilters_SkipMinimums (h : History) (f : FilterOptions)
    (m : Int) : (effectiveFilters h f m).SkipMinimums = f.SkipMinimums := by
  unfold effectiveFilters
  split <;> rfl

theorem effectiveFilters_MinRPE (h : History) (f : FilterOptions)
    (m : Int) : (effectiveFilters h f m).MinRPE = f.MinRPE := by
  unfold effectiveFilters
  split <;> rfl

theorem effectiveFilters_MaxRPE_of_cap {h : History} {f : FilterOptions}
    {m : Int} (hcap : (GetTodayStatsDaily h).TotalRPE ≥ m) :
    (effectiveFilters h f m).MaxRPE = autoRecoveryMaxRPE := by
  unfold effectiveFilters
  rw [if_pos hcap]

theorem wrsLoop_mem {r : ℚ} :
    ∀ {ws : List weightedSnack} {c : ℚ} {s : Movo},
      wrsLoop r ws c = some s → s ∈ ws.map fun w => w.snack := by
  intro ws
  induction ws with
  | nil => intro c s hs; simp [wrsLoop] at hs
  | cons w rest ih =>
    intro c s hs
    unfold wrsLoop at hs
    simp only [] at hs
    split at hs
    · simp at hs
      simp [hs]
    · simp [ih hs]

theorem weightedRandomSelect_mem {ws : List weightedSnack} {u : ℚ} {s : Movo}
    (hs : weightedRandomSelect ws u = some s) : s ∈ ws.map fun w => w.snack := by
  unfold weightedRandomSelect at hs
  simp only [] at hs
  split at hs
  · cases hs
    exact wrsLoop_mem (by assumption)
  · rcases Option.map_eq_some'.mp hs with ⟨w, hw, hsnack⟩
    subst hsnack
    exact List.mem_map_of_mem _ (List.mem_of_getLast?_eq_some hw)

theorem weightedRandomSelect_isSome {ws : List weightedSnack} (hne : ws ≠ [])
    (u : ℚ) : (weightedRandomSelect ws u).isSome = true := by
  unfold weightedRandomSelect
  cases hw : wrsLoop (u * totalWeightOf ws) ws 0 with
  | some s => simp [hw]
  | none => simp [hw, List.getLast?_isSome, hne]

theorem selectSnack_ok_mem {h : History} {snacks : List Movo}
    {filters : FilterOptions} {maxDailyRPE : Int} {u : ℚ} {s : Movo}
    (hok : SelectSnack h snacks filters maxDailyRPE u = .ok s) :
    s ∈ filterByFrequency h
      (candidatesAfterMinimums h
        (filterSnacks snacks (effectiveFilters h filters maxDailyRPE))
        (effectiveFilters h filters maxDailyRPE).SkipMinimums) := by
  unfold SelectSnack at hok
  simp only [] at hok
  split at hok
  · exact absurd hok (by simp)
  · split at hok
    · exact absurd hok (by simp)
    · split at hok
      · rename_i selected heq
        have hmem := weightedRandomSelect_mem heq
        simp only [List.map_map] at hmem
        have : ((fun w => w.snack) ∘ fun snack =>
            weightedSnack.mk snack (calculateWeight h snack)) = id := rfl
        rw [this, List.map_id] at hmem
        cases hok
        exact hmem
      · exact absurd hok (by simp)

/-! ### C3: the frequency cap -/

/-- C3: an item with `MaxPerDay = N > 0` whose today's completed-count has
reached `N` is excluded by the frequency filter; an item with
`MaxPerDay = 0` is never excluded by it; and when `MaxPerDay = MinPerDay > 0`
the item is excluded as soon as its minimum is met. -/
theorem filterByFrequency_cap (h : History) (snacks : List Movo) (s : Movo) :
    (s.MaxPerDay > 0 → (GetCountTodayDaily h s.FullCode).1 ≥ s.MaxPerDay →
        s ∉ filterByFrequency h snacks)
    ∧ (s.MaxPerDay = 0 → s ∈ snacks → s ∈ filterByFrequency h snacks)
    ∧ (s.MaxPerDay = s.MinPerDay → s.MinPerDay > 0 →
        (GetCountTodayDaily h s.FullCode).1 ≥ s.MinPerDay →
        s ∉ filterByFrequency h snacks) := by
  refine ⟨?_, ?_, ?_⟩
  · intro hpos hcount hmem
    have := (List.mem_filter.mp hmem).2
    simp [hpos, hcount] at this
  · intro hzero hmem
    refine List.mem_filter.mpr ⟨hmem, ?_⟩
    simp [hzero]
  · intro heq hpos hcount hmem
    have := (List.mem_filter.mp hmem).2
    rw [heq] at this
    simp [hpos, hcount] at this

/-- Witness for C3 at concrete inputs: `movoCap` (cap 1, done once today) is
excluded, `movoA` (cap 0) is kept, and `movoMinMax` (min = max = 1, done
once today) is excluded. -/
theorem filterByFrequency_cap_witness :
    movoCap ∉ filterByFrequency histCapDone [movoCap]
    ∧ movoA ∈ filterByFrequency hist0 [movoA]
    ∧ movoMinMax ∉ filterByFrequency histMinMaxDone [movoMinMax] :=
  ⟨(filterByFrequency_cap histCapDone [movoCap] movoCap).1
      (by decide) (by decide),
   (filterByFrequency_cap hist0 [movoA] movoA).2.1 (by decide) (by decide),
   (filterByFrequency_cap histMinMaxDone [movoMinMax] movoMinMax).2.2
      (by decide) (by decide) (by decide)⟩

/-! ### C8: duration defaults in range-overlap mode -/

/-- C8 counterexample: with every constraint bound unset, the duration check
does not pass every item through — an unset max bound defaults to 999, not
`+∞`, so an item whose duration range lies above 999 is rejected (and is
dropped by `filterSnacks`). -/
theorem durationFilter_unset_counterexample :
    filters0.ExactDuration = 0 ∧ filters0.MinDuration = 0
    ∧ filters0.MaxDuration = 0
    ∧ passesDurationFilter filters0 movoLong = false
    ∧ filterSnacks [movoLong] filters0 = [] := by decide

/-- C8 (amended): in range-overlap mode an unset min bound defaults to 0 and
an unset max bound defaults to 999.  With the max bound unset an item passes
iff `[MinDuration, 999]` meets `[DurationMin, DurationMax]`; with only the
max bound set, iff `[0, MaxDuration]` meets it. -/
theorem passesDurationFilter_range_defaults (f : FilterOptions) (s : Movo)
    (hexact : ¬f.ExactDuration > 0) :
    (f.MaxDuration = 0 →
        (passesDurationFilter f s = true ↔
          s.DurationMax ≥ f.MinDuration ∧ s.DurationMin ≤ 999))
    ∧ (f.MinDuration = 0 → f.MaxDuration ≠ 0 →
        (passesDurationFilter f s = true ↔
          s.DurationMax ≥ 0 ∧ s.DurationMin ≤ f.MaxDuration)) := by
  constructor
  · intro hmax0
    simp [passesDurationFilter, hexact, hmax0, MatchesDuration]
  · intro hmin0 hmax
    simp [passesDurationFilter, hexact, hmin0, hmax, MatchesDuration]

/-- Witness for C8's amended theorem: with all bounds unset, `movoA`
(durations 1–5) passes the range check iff its range meets `[0, 999]`. -/
theorem passesDurationFilter_range_defaults_witness :
    passesDurationFilter filters0 movoA = true ↔
      movoA.DurationMax ≥ filters0.MinDuration ∧ movoA.DurationMin ≤ 999 :=
  (passesDurationFilter_range_defaults filters0 movoA (by decide)).1 (by decide)

/-! ### C9: the subset filter (modelled from the spec) -/

/-- C9: `filterBySubset` is the identity for an empty subset name, fails
with `UnknownSubset` for a name absent from the loaded subsets, and
otherwise yields the order-preserving intersection of the items with the
subset's allow-list (an empty intersection is returned without error). -/
theorem filterBySubset_spec (snacks : List Movo)
    (subsets : List (String × MovoSubset)) :
    (filterBySubset snacks "" subsets = .ok snacks)
    ∧ (∀ name, name ≠ "" → subsets.lookup name = none →
        filterBySubset snacks name subsets = .error "UnknownSubset")
    ∧ (∀ name sub, name ≠ "" → subsets.lookup name = some sub →
        ∃ l, filterBySubset snacks name subsets = .ok l
          ∧ l.Sublist snacks
          ∧ ∀ s, s ∈ l ↔ s ∈ snacks ∧ sub.Codes.contains s.FullCode = true) := by
  refine ⟨by simp [filterBySubset], ?_, ?_⟩
  · intro name hne hnone
    simp [filterBySubset, hne, hnone]
  · intro name sub hne hsub
    refine ⟨snacks.filter fun s => sub.Codes.contains s.FullCode, ?_, ?_, ?_⟩
    · simp [filterBySubset, hne, hsub]
    · exact List.filter_sublist snacks
    · intro s
      exact List.mem_filter

/-- Witness for C9 at concrete inputs: an unknown name errors, and the
"recovery" subset keeps exactly the allow-listed movos. -/
theorem filterBySubset_spec_witness :
    filterBySubset [movoA, movoB] "missing" subsetsFix = .error "UnknownSubset"
    ∧ ∃ l, filterBySubset [movoA, movoB] "recovery" subsetsFix = .ok l
      ∧ l.Sublist [movoA, movoB]
      ∧ ∀ s, s ∈ l ↔ s ∈ [movoA, movoB]
          ∧ (MovoSubset.mk "easy movos" ["T-a"]).Codes.contains s.FullCode = true :=
  ⟨(filterBySubset_spec [movoA, movoB] subsetsFix).2.1 "missing"
      (by decide) (by decide),
   (filterBySubset_spec [movoA, movoB] subsetsFix).2.2 "recovery"
      (MovoSubset.mk "easy movos" ["T-a"]) (by decide) (by decide)⟩

/-! ### C10: recovery mode with a caller minimum above the ceiling -/

/-- C10: when recovery mode is active and the caller asks for a minimum
intensity above 2, the forced `MaxRPE = 2` makes the two RPE guards
unsatisfiable, so the constraint filter empties the pool and `SelectSnack`
always returns the no-match error. -/
theorem selectSnack_recovery_minRPE_conflict (h : History) (snacks : List Movo)
    (filters : FilterOptions) (maxDailyRPE : Int) (u : ℚ)
    (hcap : (GetTodayStatsDaily h).TotalRPE ≥ maxDailyRPE)
    (hmin : filters.MinRPE > 2) :
    SelectSnack h snacks filters maxDailyRPE u
      = .error "no snacks match the specified filters" := by
  have hnil : filterSnacks snacks (effectiveFilters h filters maxDailyRPE) = [] := by
    refine List.filter_eq_nil_iff.mpr ?_
    intro s hs hpass
    unfold snackPassesFilters at hpass
    rw [effectiveFilters_MaxRPE_of_cap hcap, effectiveFilters_MinRPE] at hpass
    simp only [Bool.and_eq_true, Bool.or_eq_true, Bool.not_eq_true',
      decide_eq_true_eq, decide_eq_false_iff_not, autoRecoveryMaxRPE] at hpass
    obtain ⟨⟨⟨⟨-, -⟩, hminRPE⟩, hmaxRPE⟩, -⟩ := hpass
    omega
  unfold SelectSnack
  simp [hnil]

/-- Witness for C10: with today's completed RPE at the cap and a requested
minimum intensity of 3, selection over `[movoA]` fails with the no-match
error. -/
theorem selectSnack_recovery_minRPE_conflict_witness :
    SelectSnack histBudget [movoA]
      { filters0 with MinRPE := 3 } 30 0
      = .error "no snacks match the specified filters" :=
  selectSnack_recovery_minRPE_conflict histBudget [movoA]
    { filters0 with MinRPE := 3 } 30 0 (by decide) (by decide)

theorem candidatesAfterMinimums_false (h : History) (l : List Movo) :
    candidatesAfterMinimums h l false =
      if (filterToIncompleteMinimums h l).isEmpty then l
      else filterToIncompleteMinimums h l := by
  simp [candidatesAfterMinimums]

/-! ### C1: the incomplete-minimum priority tier -/

/-- C1: with `SkipMinimums` false, whenever `SelectSnack` returns an item and
the incomplete-minimum subset of the constraint-filtered candidates is
non-empty, the returned item lies in that subset; when the subset is empty
the priority step keeps the full constraint-filtered pool. -/
theorem selectSnack_minimum_priority (h : History) (snacks : List Movo)
    (filters : FilterOptions) (maxDailyRPE : Int) (u : ℚ) (s : Movo)
    (hskip : filters.SkipMinimums = false)
    (hok : SelectSnack h snacks filters maxDailyRPE u = .ok s) :
    (filterToIncompleteMinimums h
        (filterSnacks snacks (effectiveFilters h filters maxDailyRPE)) ≠ [] →
      s ∈ filterToIncompleteMinimums h
        (filterSnacks snacks (effectiveFilters h filters maxDailyRPE)))
    ∧ (filterToIncompleteMinimums h
        (filterSnacks snacks (effectiveFilters h filters maxDailyRPE)) = [] →
      candidatesAfterMinimums h
          (filterSnacks snacks (effectiveFilters h filters maxDailyRPE))
          (effectiveFilters h filters maxDailyRPE).SkipMinimums
        = filterSnacks snacks (effectiveFilters h filters maxDailyRPE)) := by
  have hskip' : (effectiveFilters h filters maxDailyRPE).SkipMinimums = false := by
    rw [effectiveFilters_SkipMinimums, hskip]
  constructor
  · intro hne
    have hmem := selectSnack_ok_mem hok
    rw [hskip', candidatesAfterMinimums_false,
      if_neg (by simp [List.isEmpty_iff, hne])] at hmem
    exact mem_of_mem_filterByFrequency hmem
  · intro hnil
    rw [hskip', candidatesAfterMinimums_false, if_pos (by simp [hnil])]

/-- Witness for C1: over `[movoMin, movoB]` with an empty history the
incomplete-minimum set is `[movoMin]`, and the selected item `movoMin`
belongs to it. -/
theorem selectSnack_minimum_priority_witness :
    movoMin ∈ filterToIncompleteMinimums hist0
      (filterSnacks [movoMin, movoB] (effectiveFilters hist0 filters0 30)) :=
  (selectSnack_minimum_priority hist0 [movoMin, movoB] filters0 30 0 movoMin
    rfl
    (by
      simp [SelectSnack, effectiveFilters, candidatesAfterMinimums,
        filterSnacks, snackPassesFilters, passesDurationFilter,
        MatchesDuration, HasAllTags, filterToIncompleteMinimums,
        filterByFrequency, GetCountTodayDaily, GetTodayStatsDaily,
        GetLastDoneDaily, HasEverBeenDoneDaily, calculateWeight,
        weightedRandomSelect, totalWeightOf, wrsLoop, minPerDayBoost,
        neverDoneBoost, recencyBoost, recencyDays, autoRecoveryMaxRPE,
        hist0, movoMin, movoB, filters0])).1
    (by decide)

/-! ### C2: recovery mode caps the returned intensity -/

/-- C2: when today's completed RPE has reached the daily cap, `SelectSnack`
forces the max-intensity bound to `autoRecoveryMaxRPE = 2`, and every item
it returns has effective RPE at most 2, whatever the caller's bounds. -/
theorem selectSnack_recovery_caps_rpe (h : History) (snacks : List Movo)
    (filters : FilterOptions) (maxDailyRPE : Int) (u : ℚ)
    (hcap : (GetTodayStatsDaily h).TotalRPE ≥ maxDailyRPE) :
    (effectiveFilters h filters maxDailyRPE).MaxRPE = autoRecoveryMaxRPE
    ∧ ∀ s, SelectSnack h snacks filters maxDailyRPE u = .ok s →
        s.EffectiveRPE ≤ 2 := by
  refine ⟨effectiveFilters_MaxRPE_of_cap hcap, ?_⟩
  intro s hok
  have hmem := selectSnack_ok_mem hok
  have h1 : s ∈ filterSnacks snacks (effectiveFilters h filters maxDailyRPE) :=
    mem_of_mem_candidatesAfterMinimums (mem_of_mem_filterByFrequency hmem)
  have h2 := (mem_filterSnacks_iff.mp h1).2
  unfold snackPassesFilters at h2
  rw [effectiveFilters_MaxRPE_of_cap hcap] at h2
  simp only [autoRecoveryMaxRPE, Bool.and_eq_true, Bool.or_eq_true,
    Bool.not_eq_true', decide_eq_true_eq, decide_eq_false_iff_not] at h2
  obtain ⟨⟨⟨⟨-, -⟩, -⟩, hmax⟩, -⟩ := h2
  rcases hmax with hmax | hmax
  · omega
  · exact hmax

/-- Witness for C2: with today's completed RPE already 30 and a cap of 30,
selection over `[movoA]` returns `movoA`, whose effective RPE is ≤ 2. -/
theorem selectSnack_recovery_caps_rpe_witness :
    (effectiveFilters histBudget filters0 30).MaxRPE = autoRecoveryMaxRPE
    ∧ movoA.EffectiveRPE ≤ 2 := by
  have hthm := selectSnack_recovery_caps_rpe histBudget [movoA] filters0 30 0
    (by decide)
  refine ⟨hthm.1, hthm.2 movoA ?_⟩
  simp [SelectSnack, effectiveFilters, candidatesAfterMinimums, filterSnacks,
    snackPassesFilters, passesDurationFilter, MatchesDuration, HasAllTags,
    filterToIncompleteMinimums, filterByFrequency, GetCountTodayDaily,
    GetTodayStatsDaily, GetLastDoneDaily, HasEverBeenDoneDaily,
    calculateWeight, weightedRandomSelect, totalWeightOf, wrsLoop,
    minPerDayBoost, neverDoneBoost, recencyBoost, recencyDays,
    autoRecoveryMaxRPE, histBudget, entryBigRPE, movoA, filters0]

/-! ### C4: empty pools produce errors, never a panic or a default item -/

/-- C4: an empty constraint-filtered pool yields the no-match error; a pool
emptied by the frequency filter yields the exhausted error; a returned item
always comes from the frequency-filtered pool (so the draw never runs on
zero candidates); and every error is one of those two. -/
theorem selectSnack_empty_pools (h : History) (snacks : List Movo)
    (filters : FilterOptions) (maxDailyRPE : Int) (u : ℚ) :
    (filterSnacks snacks (effectiveFilters h filters maxDailyRPE) = [] →
      SelectSnack h snacks filters maxDailyRPE u
        = .error "no snacks match the specified filters")
    ∧ (filterSnacks snacks (effectiveFilters h filters maxDailyRPE) ≠ [] →
      filterByFrequency h
          (candidatesAfterMinimums h
            (filterSnacks snacks (effectiveFilters h filters maxDailyRPE))
            (effectiveFilters h filters maxDailyRPE).SkipMinimums) = [] →
      SelectSnack h snacks filters maxDailyRPE u
        = .error "all matching snacks have reached their daily limit")
    ∧ (∀ s, SelectSnack h snacks filters maxDailyRPE u = .ok s →
      s ∈ filterByFrequency h
          (candidatesAfterMinimums h
            (filterSnacks snacks (effectiveFilters h filters maxDailyRPE))
            (effectiveFilters h filters maxDailyRPE).SkipMinimums))
    ∧ (∀ msg, SelectSnack h snacks filters maxDailyRPE u = .error msg →
      msg = "no snacks match the specified filters"
      ∨ msg = "all matching snacks have reached their daily limit") := by
  refine ⟨?_, ?_, fun s hok => selectSnack_ok_mem hok, ?_⟩
  · intro hnil
    unfold SelectSnack
    simp [hnil]
  · intro hne hfreq
    unfold SelectSnack
    simp [List.isEmpty_iff, hne, hfreq]
  · intro msg herr
    unfold SelectSnack at herr
    simp only [] at herr
    split at herr
    · left
      exact (Except.error.injEq _ _).mp herr.symm
    · split at herr
      · right
        exact (Except.error.injEq _ _).mp herr.symm
      · split at herr
        · exact absurd herr (by simp)
        · rename_i hempty _ hdraw
          exfalso
          have hlistne : filterByFrequency h
              (candidatesAfterMinimums h
                (filterSnacks snacks (effectiveFilters h filters maxDailyRPE))
                (effectiveFilters h filters maxDailyRPE).SkipMinimums) ≠ [] := by
            simpa [List.isEmpty_iff] using hempty
          have hmapne : List.map (fun snack =>
              weightedSnack.mk snack (calculateWeight h snack))
              (filterByFrequency h (candidatesAfterMinimums h
                (filterSnacks snacks (effectiveFilters h filters maxDailyRPE))
                (effectiveFilters h filters maxDailyRPE).SkipMinimums)) ≠ [] := by
            simpa using hlistne
          have hsome := weightedRandomSelect_isSome hmapne u
          rw [hdraw] at hsome
          simp at hsome

/-- Witness for C4 at concrete inputs: an empty catalog gives the no-match
error; a capped-out catalog gives the exhausted error; a successful run
returns a member of the frequency-filtered pool; and the exhausted error is
one of the two admissible messages. -/
theorem selectSnack_empty_pools_witness :
    SelectSnack hist0 [] filters0 30 0
      = .error "no snacks match the specified filters"
    ∧ SelectSnack histCapDone [movoCap] filters0 30 0
      = .error "all matching snacks have reached their daily limit"
    ∧ movoMin ∈ filterByFrequency hist0
        (candidatesAfterMinimums hist0
          (filterSnacks [movoMin, movoB] (effectiveFilters hist0 filters0 30))
          (effectiveFilters hist0 filters0 30).SkipMinimums)
    ∧ ("all matching snacks have reached their daily limit"
        = "no snacks match the specified filters"
      ∨ "all matching snacks have reached their daily limit"
        = "all matching snacks have reached their daily limit") := by
  refine ⟨(selectSnack_empty_pools hist0 [] filters0 30 0).1 (by decide),
    (selectSnack_empty_pools histCapDone [movoCap] filters0 30 0).2.1
      (by decide) (by decide),
    (selectSnack_empty_pools hist0 [movoMin, movoB] filters0 30 0).2.2.1 movoMin
      ?_,
    (selectSnack_empty_pools histCapDone [movoCap] filters0 30 0).2.2.2 _
      ?_⟩
  · simp [SelectSnack, effectiveFilters, candidatesAfterMinimums, filterSnacks,
      snackPassesFilters, passesDurationFilter, MatchesDuration, HasAllTags,
      filterToIncompleteMinimums, filterByFrequency, GetCountTodayDaily,
      GetTodayStatsDaily, GetLastDoneDaily, HasEverBeenDoneDaily,
      calculateWeight, weightedRandomSelect, totalWeightOf, wrsLoop,
      minPerDayBoost, neverDoneBoost, recencyBoost, recencyDays,
      autoRecoveryMaxRPE, hist0, movoMin, movoB, filters0]
  · exact (selectSnack_empty_pools histCapDone [movoCap] filters0 30 0).2.1
      (by decide) (by decide)

/-! ### C5: never-done items outweigh previously-done ones -/

theorem minUnmet_eq_false {h : History} {s : Movo}
    (hs : ¬(s.MinPerDay > 0 ∧ (GetCountTodayDaily h s.FullCode).1 < s.MinPerDay)) :
    minUnmet h s = false := by
  by_cases h1 : s.MinPerDay > 0
  · have h2 : ¬(GetCountTodayDaily h s.FullCode).1 < s.MinPerDay :=
      fun hq => hs ⟨h1, hq⟩
    simp [minUnmet, h1, h2]
  · simp [minUnmet, h1]

theorem calculateWeight_decomp (h : History) (s : Movo) :
    calculateWeight h s
      = s.Weight * (if minUnmet h s = true then minPerDayBoost else 1)
        * (if neverDone h s = true then neverDoneBoost else 1)
        * (if staleDone h s = true then recencyBoost else 1) := by
  rcases hld : GetLastDoneDaily h s.FullCode with _ | t
  · have hnever : neverDone h s = true := by
      simp [neverDone, HasEverBeenDoneDaily, hld]
    have hstale : staleDone h s = false := by
      simp [staleDone, hld]
    rw [hnever, hstale]
    unfold calculateWeight
    rw [hld]
    simp only [HasEverBeenDoneDaily, hld, Option.isSome_none, Bool.not_false,
      if_true]
    by_cases h1 : s.MinPerDay > 0
    · by_cases h2 : (GetCountTodayDaily h s.FullCode).1 < s.MinPerDay
      · have hmin : minUnmet h s = true := by simp [minUnmet, h1, h2]
        rw [hmin]
        simp [h1, h2]
      · have hmin : minUnmet h s = false := by simp [minUnmet, h1, h2]
        rw [hmin]
        simp [h1, h2]
    · have hmin : minUnmet h s = false := by simp [minUnmet, h1]
      rw [hmin]
      simp [h1]
  · have hnever : neverDone h s = false := by
      simp [neverDone, HasEverBeenDoneDaily, hld]
    have hstale : staleDone h s
        = decide ((h.now - t) / (3600 * 24) ≥ recencyDays) := by
      simp [staleDone, hld]
    rw [hnever, hstale]
    unfold calculateWeight
    rw [hld]
    simp only [HasEverBeenDoneDaily, hld, Option.isSome_some, Bool.not_true]
    by_cases h3 : (h.now - t) / (3600 * 24) ≥ recencyDays
    · by_cases h1 : s.MinPerDay > 0
      · by_cases h2 : (GetCountTodayDaily h s.FullCode).1 < s.MinPerDay
        · have hmin : minUnmet h s = true := by simp [minUnmet, h1, h2]
          rw [hmin]
          simp [h1, h2, h3]
        · have hmin : minUnmet h s = false := by simp [minUnmet, h1, h2]
          rw [hmin]
          simp [h1, h2, h3]
      · have hmin : minUnmet h s = false := by simp [minUnmet, h1]
        rw [hmin]
        simp [h1, h3]
    · by_cases h1 : s.MinPerDay > 0
      · by_cases h2 : (GetCountTodayDaily h s.FullCode).1 < s.MinPerDay
        · have hmin : minUnmet h s = true := by simp [minUnmet, h1, h2]
          rw [hmin]
          simp [h1, h2, h3]
        · have hmin : minUnmet h s = false := by simp [minUnmet, h1, h2]
          rw [hmin]
          simp [h1, h2, h3]
      · have hmin : minUnmet h s = false := by simp [minUnmet, h1]
        rw [hmin]
        simp [h1, h3]

/-- C5: two items with the same positive base weight, both outside the
minimum-priority tier, where A has never been completed and B has: A's
computed weight strictly exceeds B's, for every consistent snapshot. -/
theorem calculateWeight_never_done_gt (h : History) (A B : Movo) (t : ℚ)
    (hw : A.Weight = B.Weight) (hpos : 0 < A.Weight)
    (hminA : ¬(A.MinPerDay > 0 ∧ (GetCountTodayDaily h A.FullCode).1 < A.MinPerDay))
    (hminB : ¬(B.MinPerDay > 0 ∧ (GetCountTodayDaily h B.FullCode).1 < B.MinPerDay))
    (hA : GetLastDoneDaily h A.FullCode = none)
    (hB : GetLastDoneDaily h B.FullCode = some t) :
    calculateWeight h A > calculateWeight h B := by
  have hdA := calculateWeight_decomp h A
  have hdB := calculateWeight_decomp h B
  rw [minUnmet_eq_false hminA] at hdA
  rw [minUnmet_eq_false hminB] at hdB
  have hneverA : neverDone h A = true := by
    simp [neverDone, HasEverBeenDoneDaily, hA]
  have hstaleA : staleDone h A = false := by simp [staleDone, hA]
  have hneverB : neverDone h B = false := by
    simp [neverDone, HasEverBeenDoneDaily, hB]
  rw [hneverA, hstaleA] at hdA
  rw [hneverB] at hdB
  simp only [if_true, if_false, Bool.false_eq_true, ite_false, ite_true,
    mul_one, one_mul] at hdA hdB
  have hposB : 0 < B.Weight := hw ▸ hpos
  rw [hdA, hdB, hw]
  cases hsB : staleDone h B <;>
    simp only [hsB, if_true, if_false, Bool.false_eq_true, ite_false,
      ite_true, mul_one, neverDoneBoost, recencyBoost] <;>
    nlinarith

/-- Witness for C5: with `movoB` completed a day ago and `movoA` never
completed, the weight of `movoA` (3) strictly exceeds that of `movoB` (1). -/
theorem calculateWeight_never_done_gt_witness :
    calculateWeight histBdoneRecent movoA > calculateWeight histBdoneRecent movoB :=
  calculateWeight_never_done_gt histBdoneRecent movoA movoB 0 rfl
    (by norm_num [movoA]) (by decide) (by decide) (by decide) (by decide)

/-! ### C6: the three weight boosts -/

/-- C6 counterexample: the never-done boost and the recency boost can never
apply together — the former requires no completed record, the latter one —
so no item in any snapshot carries all three boosts at once. -/
theorem calculateWeight_not_all_three_boosts :
    ¬∃ (h : History) (s : Movo),
      minUnmet h s = true ∧ neverDone h s = true ∧ staleDone h s = true := by
  rintro ⟨h, s, -, hnever, hstale⟩
  unfold neverDone HasEverBeenDoneDaily at hnever
  unfold staleDone at hstale
  cases hld : GetLastDoneDaily h s.FullCode with
  | none => rw [hld] at hstale; exact Bool.noConfusion hstale
  | some t => rw [hld] at hnever; simp at hnever

/-- C6 (amended): `calculateWeight` multiplies the base weight by 10 iff the
daily minimum is unmet, by 3 iff the item was never completed, and by 2 iff
its most recent completion is ≥ 7 days old; the boosts compose
multiplicatively, but the last two are mutually exclusive, so at most
`base × 10 × 3` or `base × 10 × 2` can arise — both of which do. -/
theorem calculateWeight_eq_boosts (h : History) (s : Movo) :
    calculateWeight h s
      = s.Weight * (if minUnmet h s = true then minPerDayBoost else 1)
        * (if neverDone h s = true then neverDoneBoost else 1)
        * (if staleDone h s = true then recencyBoost else 1)
    ∧ (neverDone h s && staleDone h s) = false
    ∧ (∃ h2 s2, (minUnmet h2 s2 && neverDone h2 s2) = true
        ∧ calculateWeight h2 s2 = s2.Weight * minPerDayBoost * neverDoneBoost)
    ∧ (∃ h3 s3, (minUnmet h3 s3 && staleDone h3 s3) = true
        ∧ calculateWeight h3 s3 = s3.Weight * minPerDayBoost * recencyBoost) := by
  refine ⟨calculateWeight_decomp h s, ?_, ?_, ?_⟩
  · unfold neverDone staleDone HasEverBeenDoneDaily
    cases hld : GetLastDoneDaily h s.FullCode with
    | none => simp [hld]
    | some t => simp [hld]
  · refine ⟨hist0, movoMin, by decide, ?_⟩
    norm_num [calculateWeight, GetCountTodayDaily, HasEverBeenDoneDaily,
      GetLastDoneDaily, minPerDayBoost, neverDoneBoost, recencyBoost,
      recencyDays, hist0, movoMin]
  · refine ⟨histMinStale, movoMin, ?_, ?_⟩
    · norm_num [minUnmet, staleDone, GetCountTodayDaily, GetLastDoneDaily,
        recencyDays, histMinStale, movoMin]
    · norm_num [calculateWeight, GetCountTodayDaily, HasEverBeenDoneDaily,
        GetLastDoneDaily, minPerDayBoost, neverDoneBoost, recencyBoost,
        recencyDays, histMinStale, movoMin]

/-! ### C7: the weighted random draw -/

theorem totalWeightOf_cons (w : weightedSnack) (rest : List weightedSnack) :
    totalWeightOf (w :: rest) = w.weight + totalWeightOf rest := by
  simp [totalWeightOf]

theorem wrsLoop_eq_specFirstAtLeast (r : ℚ) :
    ∀ (ws : List weightedSnack) (c : ℚ),
      wrsLoop r ws c = specFirstAtLeast ws (r - c) := by
  intro ws
  induction ws with
  | nil => intro c; rfl
  | cons w rest ih =>
    intro c
    unfold wrsLoop specFirstAtLeast
    simp only []
    by_cases hc : r ≤ c + w.weight
    · rw [if_pos hc, if_pos (by linarith)]
    · rw [if_neg hc, if_neg (by intro hcon; exact hc (by linarith)), ih]
      congr 1
      ring

theorem specFirstAtLeast_isSome :
    ∀ {ws : List weightedSnack} {r : ℚ}, ws ≠ [] →
      r ≤ totalWeightOf ws → (specFirstAtLeast ws r).isSome = true := by
  intro ws
  induction ws with
  | nil => intro r hne _; exact absurd rfl hne
  | cons w rest ih =>
    intro r _ hr
    unfold specFirstAtLeast
    by_cases hw : r ≤ w.weight
    · rw [if_pos hw]; rfl
    · rw [if_neg hw]
      cases rest with
      | nil =>
        exfalso
        rw [totalWeightOf_cons] at hr
        simp [totalWeightOf] at hr
        exact hw hr
      | cons w2 rest2 =>
        refine ih (by simp) ?_
        rw [totalWeightOf_cons] at hr
        linarith

theorem specFirstAtLeast_mem :
    ∀ {ws : List weightedSnack} {r : ℚ} {s : Movo},
      specFirstAtLeast ws r = some s → s ∈ ws.map fun w => w.snack := by
  intro ws
  induction ws with
  | nil => intro r s hs; exact Option.noConfusion hs
  | cons w rest ih =>
    intro r s hs
    unfold specFirstAtLeast at hs
    split at hs
    · simp at hs
      simp [hs]
    · simp [ih hs]

theorem totalWeightOf_pos {ws : List weightedSnack} (hne : ws ≠ [])
    (hpos : ∀ w ∈ ws, 0 < w.weight) : 0 < totalWeightOf ws := by
  refine List.sum_pos _ ?_ (by simpa using hne)
  intro x hx
  obtain ⟨w, hw, rfl⟩ := List.mem_map.mp hx
  exact hpos w hw

/-- C7 counterexample: with two items of weight 1 the scaled draw is
`r = (1/2) · 2 = 1`; the code returns the FIRST item, whose partial sum
merely equals `r`, while the first partial sum strictly exceeding `r`
belongs to the SECOND item. -/
theorem weightedRandomSelect_strict_counterexample :
    weightedRandomSelect
        [weightedSnack.mk movoA 1, weightedSnack.mk movoB 1] (1/2)
      = some movoA
    ∧ (1/2 : ℚ) * totalWeightOf
        [weightedSnack.mk movoA 1, weightedSnack.mk movoB 1] = 1
    ∧ specFirstStrict [weightedSnack.mk movoA 1, weightedSnack.mk movoB 1] 1
      = some movoB
    ∧ movoA ≠ movoB := by
  refine ⟨?_, ?_, ?_, by decide⟩
  · norm_num [weightedRandomSelect, totalWeightOf, wrsLoop]
  · norm_num [totalWeightOf]
  · norm_num [specFirstStrict]

/-- C7 (amended): for a non-empty list with positive weights and a uniform
draw `u ∈ [0,1)` — so `r = u·total ∈ [0, total)` — `weightedRandomSelect`
returns the first item in iteration order whose running partial sum is
`≥ r`, and it always returns an element of the input list. -/
theorem weightedRandomSelect_first_at_least (ws : List weightedSnack) (u : ℚ)
    (hne : ws ≠ []) (hpos : ∀ w ∈ ws, 0 < w.weight)
    (h0 : 0 ≤ u) (h1 : u < 1) :
    weightedRandomSelect ws u = specFirstAtLeast ws (u * totalWeightOf ws)
    ∧ ∃ s, weightedRandomSelect ws u = some s
        ∧ s ∈ ws.map fun w => w.snack := by
  have htot : 0 < totalWeightOf ws := totalWeightOf_pos hne hpos
  have hr : u * totalWeightOf ws ≤ totalWeightOf ws := by nlinarith
  have hloop : wrsLoop (u * totalWeightOf ws) ws 0
      = specFirstAtLeast ws (u * totalWeightOf ws) := by
    rw [wrsLoop_eq_specFirstAtLeast]
    congr 1
    ring
  obtain ⟨s0, hs0⟩ := Option.isSome_iff_exists.mp (specFirstAtLeast_isSome hne hr)
  have hsel : weightedRandomSelect ws u = some s0 := by
    show (match wrsLoop (u * totalWeightOf ws) ws 0 with
      | some s => some s
      | none => ws.getLast?.map fun w => w.snack) = some s0
    rw [hloop, hs0]
  exact ⟨by rw [hsel, hs0], s0, hsel, specFirstAtLeast_mem hs0⟩

/-- Witness for C7's amended theorem at the counterexample's own input:
the draw over two weight-1 items with `u = 1/2` equals the first item whose
partial sum reaches `r = 1`, and is an element of the list. -/
theorem weightedRandomSelect_first_at_least_witness :
    weightedRandomSelect [weightedSnack.mk movoA 1, weightedSnack.mk movoB 1]
        (1/2)
      = specFirstAtLeast [weightedSnack.mk movoA 1, weightedSnack.mk movoB 1]
          ((1/2) * totalWeightOf
            [weightedSnack.mk movoA 1, weightedSnack.mk movoB 1])
    ∧ ∃ s, weightedRandomSelect
          [weightedSnack.mk movoA 1, weightedSnack.mk movoB 1] (1/2) = some s
        ∧ s ∈ [weightedSnack.mk movoA 1, weightedSnack.mk movoB 1].map
            fun w => w.snack :=
  weightedRandomSelect_first_at_least
    [weightedSnack.mk movoA 1, weightedSnack.mk movoB 1] (1/2)
    (by decide) (by decide) (by norm_num) (by norm_num)

end Movodoro
